import Mathlib

/-!
Verification of the Tradingbot repository's risk manager, trading strategies
and orchestrator against its natural-language specification.

Conventions of the embedding:
* Python floats are modelled as rationals (`ℚ`); where IEEE special values
  (NaN, ±infinity) are observable in the pandas/numpy pipeline they are
  modelled explicitly by the `FQ` type below.
* `datetime.now()` values are supplied as explicit `ℕ` timestamps.
* All state is within a single calendar day, so `reset_daily_metrics`
  (which only fires when the date advances) is the identity and is not
  modelled separately.
* Python `dict`s keyed by symbol are modelled as association lists with
  unique keys; overwrite replaces the existing binding in place and
  `pop` removes the binding, exactly as for a `dict`.
* Functions that can raise (`IndexError` from `iloc`, `ZeroDivisionError`)
  return `Option`, with `none` for the raising executions.
-/

namespace Tradingbot

/-! ## Risk manager data model (src/risk_manager.py) -/

/-- The `RiskLevel` enum from risk_manager.py. -/
inductive RiskLevel where
  | LOW
  | MEDIUM
  | HIGH
  | CRITICAL
deriving DecidableEq, Repr

/-- The `Position` dataclass from risk_manager.py.  `entry_time` is the
`datetime.now()` timestamp, modelled as `ℕ`. -/
structure Position where
  symbol : String
  side : String
  amount : ℚ
  entry_price : ℚ
  current_price : ℚ
  entry_time : ℕ
  unrealized_pnl : ℚ
  unrealized_pnl_percent : ℚ
deriving DecidableEq, Repr

/-- One entry of `trade_history` as appended by `remove_position`. -/
structure TradeRecord where
  symbol : String
  side : String
  amount : ℚ
  entry_price : ℚ
  exit_price : ℚ
  entry_time : ℕ
  exit_time : ℕ
  pnl : ℚ
  pnl_percent : ℚ
deriving DecidableEq, Repr

/-- The `risk_management` configuration keys read by `RiskManager`
(with `config.get` defaults materialised as ordinary fields). -/
structure RMConfig where
  position_size_percent : ℚ
  min_trade_amount : ℚ
  max_position_size : ℚ
  max_daily_trades : ℕ
  max_concurrent_positions : ℕ
  max_drawdown : ℚ
  emergency_stop_loss : ℚ
  stop_loss : ℚ
  profit_target : ℚ
deriving DecidableEq, Repr

/-- Mutable state of a `RiskManager` instance.  `positions` models the
symbol-keyed `dict` as an association list. -/
structure RMState where
  config : RMConfig
  positions : List (String × Position)
  daily_trades : ℕ
  daily_pnl : ℚ
  trade_history : List TradeRecord
  max_drawdown : ℚ
  peak_balance : ℚ
deriving DecidableEq, Repr

/-- Membership test `symbol in self.positions` for the association-list dict model. -/
def memPos (s : String) (l : List (String × Position)) : Bool :=
  l.any (fun kv => kv.1 == s)

/-- Lookup `self.positions[symbol]` / `self.positions.get(symbol)`. -/
def lookupPos (s : String) (l : List (String × Position)) : Option Position :=
  (l.find? (fun kv => kv.1 == s)).map (fun kv => kv.2)

/-- Assignment `self.positions[symbol] = position`: a `dict` overwrite replaces the
binding in place when the key is present (a `dict` holds at most one
binding per key, so replacing the first match is exact) and appends it
otherwise. -/
def insertPos (s : String) (v : Position) :
    List (String × Position) → List (String × Position)
  | [] => [(s, v)]
  | kv :: tl => if kv.1 == s then (s, v) :: tl else kv :: insertPos s v tl

/-- Effect of `self.positions.pop(symbol)` on the map: the binding for the
key is removed. -/
def erasePos (s : String) (l : List (String × Position)) :
    List (String × Position) :=
  l.filter (fun kv => !(kv.1 == s))

/-- Embeds `RiskManager.get_available_balance`: returns the configured
`max_position_size` (the code stubs the exchange balance this way). -/
def get_available_balance (cfg : RMConfig) : ℚ :=
  cfg.max_position_size

/-- Embeds `RiskManager.calculate_position_size(symbol, price, signal_strength)`
from risk_manager.py lines 61–89 (the `symbol` argument is unused by the
body and omitted).  Returns the quantity to buy. -/
def calculate_position_size (st : RMState) (price signal_strength : ℚ) : ℚ :=
  let base_position_percent := st.config.position_size_percent
  let adjusted_position_percent := base_position_percent * signal_strength
  let available_balance := get_available_balance st.config
  let max_position_amount := available_balance * adjusted_position_percent
  if max_position_amount < st.config.min_trade_amount then 0
  else
    let clamped := min max_position_amount st.config.max_position_size
    clamped / price

/-- The reason component of `check_risk_limits`' result.  The Python code
returns formatted strings; each constructor tags one of those strings
together with the value interpolated into it. -/
inductive RiskReason where
  | dailyLimit (maxTrades : ℕ)
  | concurrentLimit (maxPositions : ℕ)
  | symbolOpen (symbol : String)
  | drawdownLimit (limit : ℚ)
  | emergencyStop (limit : ℚ)
  | passed
deriving DecidableEq, Repr

/-- Embeds `RiskManager.check_risk_limits(symbol, side, amount, price)` from
risk_manager.py lines 91–119: five checks in fixed order, first failure
short-circuits.  `side`, `amount` and `price` are bound but never read,
exactly as in the source. -/
def check_risk_limits (st : RMState) (symbol : String) (side : String)
    (amount price : ℚ) : Bool × RiskReason :=
  if st.config.max_daily_trades ≤ st.daily_trades then
    (false, .dailyLimit st.config.max_daily_trades)
  else if st.config.max_concurrent_positions ≤ st.positions.length then
    (false, .concurrentLimit st.config.max_concurrent_positions)
  else if memPos symbol st.positions then
    (false, .symbolOpen symbol)
  else if st.config.max_drawdown < st.max_drawdown then
    (false, .drawdownLimit st.config.max_drawdown)
  else if st.config.emergency_stop_loss < st.max_drawdown then
    (false, .emergencyStop st.config.emergency_stop_loss)
  else
    (true, .passed)

/-- Embeds `RiskManager.add_position(symbol, side, amount, entry_price)` from
risk_manager.py lines 121–135.  `now` is the `datetime.now()` value used
for `entry_time`.  The body unconditionally stores the new `Position`
under `symbol` and increments `daily_trades`; there is no check for an
existing binding. -/
def add_position (st : RMState) (symbol side : String)
    (amount entry_price : ℚ) (now : ℕ) : RMState :=
  let position : Position :=
    { symbol := symbol
      side := side
      amount := amount
      entry_price := entry_price
      current_price := entry_price
      entry_time := now
      unrealized_pnl := 0
      unrealized_pnl_percent := 0 }
  { st with
      positions := insertPos symbol position st.positions
      daily_trades := st.daily_trades + 1 }

/-- Embeds `RiskManager.update_position_price(symbol, current_price)` from
risk_manager.py lines 137–149.  Absent symbol: silent no-op.  When
`entry_price * amount = 0` the percent computation divides by zero
(`ZeroDivisionError`), modelled as `none`. -/
def update_position_price (st : RMState) (symbol : String)
    (current_price : ℚ) : Option RMState :=
  match lookupPos symbol st.positions with
  | none => some st
  | some position =>
    let pnl : ℚ :=
      if position.side == "long" then
        (current_price - position.entry_price) * position.amount
      else
        (position.entry_price - current_price) * position.amount
    if position.entry_price * position.amount = 0 then none
    else
      let position' :=
        { position with
            current_price := current_price
            unrealized_pnl := pnl
            unrealized_pnl_percent :=
              pnl / (position.entry_price * position.amount) }
      some { st with positions := insertPos symbol position' st.positions }

/-- Embeds `RiskManager.remove_position(symbol)` from risk_manager.py lines
151–174: pops the position, appends a trade-history record, accumulates
`daily_pnl`; returns `none` and leaves the state unchanged when the
symbol has no position.  `now` is the `datetime.now()` used for
`exit_time`. -/
def remove_position (st : RMState) (symbol : String) (now : ℕ) :
    Option Position × RMState :=
  match lookupPos symbol st.positions with
  | none => (none, st)
  | some position =>
    let record : TradeRecord :=
      { symbol := symbol
        side := position.side
        amount := position.amount
        entry_price := position.entry_price
        exit_price := position.current_price
        entry_time := position.entry_time
        exit_time := now
        pnl := position.unrealized_pnl
        pnl_percent := position.unrealized_pnl_percent }
    (some position,
      { st with
          positions := erasePos symbol st.positions
          trade_history := st.trade_history ++ [record]
          daily_pnl := st.daily_pnl + position.unrealized_pnl })

/-- The aggregate `RiskMetrics` dataclass from risk_manager.py. -/
structure RiskMetrics where
  total_balance : ℚ
  available_balance : ℚ
  total_exposure : ℚ
  max_drawdown : ℚ
  daily_pnl : ℚ
  daily_trades : ℕ
  win_rate : ℚ
  sharpe_ratio : ℚ
  risk_level : RiskLevel
deriving DecidableEq, Repr

/-- Embeds `RiskManager._determine_risk_level(drawdown, daily_trades, win_rate)`
from risk_manager.py lines 248–257. -/
def determine_risk_level (drawdown : ℚ) (daily_trades : ℕ) (win_rate : ℚ) :
    RiskLevel :=
  if 15/100 < drawdown ∨ 40 < daily_trades ∨ win_rate < 3/10 then .CRITICAL
  else if 1/10 < drawdown ∨ 30 < daily_trades ∨ win_rate < 4/10 then .HIGH
  else if 5/100 < drawdown ∨ 20 < daily_trades ∨ win_rate < 5/10 then .MEDIUM
  else .LOW

/-- Embeds `RiskManager.calculate_risk_metrics()` from risk_manager.py lines
201–246.  It returns the metrics AND mutates `peak_balance` /
`max_drawdown`, so the embedding returns the pair.  `np.std` computes a
floating-point square root, which has no exact rational counterpart, so
the standard deviation is an explicit function parameter `std`; every
other arithmetic step is translated directly. -/
def calculate_risk_metrics (std : List ℚ → ℚ) (st : RMState) :
    RiskMetrics × RMState :=
  let total_balance := get_available_balance st.config
  let available_balance := total_balance
  let total_exposure :=
    (st.positions.map (fun kv => kv.2.amount * kv.2.current_price)).sum
  let current_balance :=
    total_balance + (st.positions.map (fun kv => kv.2.unrealized_pnl)).sum
  let peak_balance' :=
    if st.peak_balance < current_balance then current_balance
    else st.peak_balance
  let drawdown :=
    if 0 < peak_balance' then (peak_balance' - current_balance) / peak_balance'
    else 0
  let max_drawdown' := max st.max_drawdown drawdown
  let win_rate : ℚ :=
    if st.trade_history ≠ [] then
      ((st.trade_history.filter (fun t => 0 < t.pnl)).length : ℚ) /
        (st.trade_history.length : ℚ)
    else 0
  let returns := st.trade_history.map (fun t => t.pnl_percent)
  let sharpe_ratio : ℚ :=
    if st.trade_history ≠ [] ∧ 1 < st.trade_history.length then
      if 0 < std returns then (returns.sum / (returns.length : ℚ)) / std returns
      else 0
    else 0
  let risk_level := determine_risk_level drawdown st.daily_trades win_rate
  (⟨total_balance, available_balance, total_exposure, max_drawdown',
    st.daily_pnl, st.daily_trades, win_rate, sharpe_ratio, risk_level⟩,
   { st with peak_balance := peak_balance', max_drawdown := max_drawdown' })

/-! ## Orchestrator (src/trading_bot.py) -/

/-- Embeds `TradingBot._run_trading_cycle` (trading_bot.py lines 89–91): the body
is exactly `asyncio.create_task(self._execute_trading_cycle())` — it
unconditionally schedules a new cycle task, with no check of whether a
previous cycle is still running.  Modelled as its effect on the number of
cycle tasks currently in flight: the count always grows by one. -/
def run_trading_cycle (in_flight : ℕ) : ℕ :=
  in_flight + 1

/-- The risk-limit call made by `TradingBot._execute_signal`
(trading_bot.py lines 188–191): it passes the literal amount `0` and the
signal's price, with side `"long"` for a buy signal and `"short"`
otherwise. -/
def execute_signal_check (st : RMState) (sigSymbol : String)
    (sigIsBuy : Bool) (sigPrice : ℚ) : Bool × RiskReason :=
  check_risk_limits st sigSymbol (if sigIsBuy then "long" else "short")
    0 sigPrice

/-! ## Floating-point values observable in the indicator pipeline

pandas/numpy float arithmetic can produce NaN (`Series.diff` at index 0,
`0.0/0.0`) and ±infinity (`x/0.0` for `x ≠ 0`).  `FQ` models a float as
an exact rational or one of those special values, with the IEEE rules
for the operations the indicator code performs. -/

inductive FQ where
  | num (q : ℚ)
  | pinf
  | ninf
  | nan
deriving DecidableEq, Repr

namespace FQ

/-- IEEE addition on `FQ`. -/
def add : FQ → FQ → FQ
  | nan, _ => nan
  | _, nan => nan
  | num a, num b => num (a + b)
  | num _, pinf => pinf
  | num _, ninf => ninf
  | pinf, num _ => pinf
  | ninf, num _ => ninf
  | pinf, pinf => pinf
  | ninf, ninf => ninf
  | pinf, ninf => nan
  | ninf, pinf => nan

/-- IEEE negation on `FQ`. -/
def neg : FQ → FQ
  | nan => nan
  | num a => num (-a)
  | pinf => ninf
  | ninf => pinf

/-- IEEE subtraction on `FQ`. -/
def sub (a b : FQ) : FQ := add a (neg b)

/-- IEEE division on `FQ`: `x/0` is NaN for `x = 0` and a signed
infinity otherwise (numpy emits a warning but returns exactly this). -/
def div : FQ → FQ → FQ
  | nan, _ => nan
  | _, nan => nan
  | num a, num b =>
    if b = 0 then
      if a = 0 then nan else if 0 < a then pinf else ninf
    else num (a / b)
  | num _, pinf => num 0
  | num _, ninf => num 0
  | pinf, num b => if 0 ≤ b then pinf else ninf
  | ninf, num b => if 0 ≤ b then ninf else pinf
  | pinf, pinf => nan
  | pinf, ninf => nan
  | ninf, pinf => nan
  | ninf, ninf => nan

/-- IEEE `<` on `FQ`: every comparison with NaN is false. -/
def blt : FQ → FQ → Bool
  | nan, _ => false
  | _, nan => false
  | num a, num b => decide (a < b)
  | num _, pinf => true
  | num _, ninf => false
  | pinf, _ => false
  | ninf, ninf => false
  | ninf, _ => true

/-- Python `min(a, b)`: returns `b` when `b < a`, else the first
argument. -/
def fmin (a b : FQ) : FQ := if blt b a then b else a

end FQ

/-! ## Indicators (src/trading_strategies.py) -/

/-- Embeds `data['close'].diff()`: NaN at index 0, consecutive differences
after (trading_strategies.py line 40). -/
def diffFQ : List ℚ → List FQ
  | [] => []
  | x :: xs => FQ.nan :: List.zipWith (fun b a => FQ.num (b - a)) xs (x :: xs)

/-- Embeds `delta.where(delta > 0, 0)` (line 41): entries where the condition
is false — including the NaN at index 0 — are replaced by `0`. -/
def gainsOf (xs : List ℚ) : List FQ :=
  (diffFQ xs).map (fun d => if FQ.blt (FQ.num 0) d then d else FQ.num 0)

/-- Embeds `-delta.where(delta < 0, 0)` (line 42). -/
def lossesOf (xs : List ℚ) : List FQ :=
  (diffFQ xs).map (fun d => FQ.neg (if FQ.blt d (FQ.num 0) then d else FQ.num 0))

/-- Mean of one full rolling window (NaN entries propagate, matching
pandas with the default `min_periods = window`). -/
def windowMean (w : List FQ) : FQ :=
  FQ.div (w.foldr FQ.add (FQ.num 0)) (FQ.num (w.length : ℚ))

/-- Embeds `Series.rolling(window=p).mean()`: NaN until `p` samples exist, then
the mean of the trailing `p` samples.  `p ≥ 1` (pandas rejects 0). -/
def rollingMean (p : ℕ) (xs : List FQ) : List FQ :=
  (List.range xs.length).map (fun i =>
    if i + 1 < p then FQ.nan
    else windowMean ((xs.take (i + 1)).drop (i + 1 - p)))

/-- Embeds `RSI.calculate` (trading_strategies.py lines 38–46):
`rs = gain/loss`, `rsi = 100 - 100/(1 + rs)` pointwise. -/
def rsiCalculate (period : ℕ) (xs : List ℚ) : List FQ :=
  let gain := rollingMean period (gainsOf xs)
  let loss := rollingMean period (lossesOf xs)
  let rs := List.zipWith FQ.div gain loss
  rs.map (fun r =>
    FQ.sub (FQ.num 100) (FQ.div (FQ.num 100) (FQ.add (FQ.num 1) r)))

/-- Accumulator form of pandas `Series.ewm(span=s).mean()` with the
default `adjust=True`: `y_t = n_t / d_t` with `n_t = x_t + u·n_(t-1)`,
`d_t = 1 + u·d_(t-1)`, `u = 1 - α`. -/
def ewmAux (u : ℚ) : List ℚ → ℚ → ℚ → List ℚ
  | [], _, _ => []
  | x :: rest, sn, sd =>
    let n := x + u * sn
    let d := 1 + u * sd
    (n / d) :: ewmAux u rest n d

/-- Embeds `Series.ewm(span=span).mean()` with `α = 2/(span+1)`; `span ≥ 1`
(pandas rejects smaller spans). -/
def ewmMean (span : ℕ) (xs : List ℚ) : List ℚ :=
  ewmAux (1 - 2 / ((span : ℚ) + 1)) xs 0 0

/-- Result of `MACD.calculate` (trading_strategies.py lines 56–69). -/
structure MACDResult where
  macd : List ℚ
  signal : List ℚ
  histogram : List ℚ
deriving DecidableEq, Repr

/-- Embeds `MACD.calculate`: EMA difference, signal line, histogram. -/
def macdCalculate (fast slow signalSpan : ℕ) (xs : List ℚ) : MACDResult :=
  let ema_fast := ewmMean fast xs
  let ema_slow := ewmMean slow xs
  let macd_line := List.zipWith (fun a b => a - b) ema_fast ema_slow
  let signal_line := ewmMean signalSpan macd_line
  let histogram := List.zipWith (fun a b => a - b) macd_line signal_line
  ⟨macd_line, signal_line, histogram⟩

/-! ## RSI+MACD strategy (src/trading_strategies.py lines 124–194) -/

/-- The `Signal` enum. -/
inductive Signal where
  | buy
  | sell
  | hold
deriving DecidableEq, Repr

/-- The `reason` strings produced by `RSIMACDStrategy.generate_signal`,
as tags (the Python strings interpolate the current RSI value; the tag
identifies which string was produced). -/
inductive SigReason where
  | insufficientData
  | rsiOversoldMacdGolden
  | rsiOverboughtMacdDead
  | noClearSignal
deriving DecidableEq, Repr

/-- The `TradingSignal` dataclass.  `timestamp` (`data.index[-1]`) is
modelled as the last row index. -/
structure TradingSignal where
  symbol : String
  signal : Signal
  strength : FQ
  price : ℚ
  timestamp : ℕ
  reason : SigReason
deriving DecidableEq, Repr

/-- The `algorithm` configuration keys read by `RSIMACDStrategy`
(with `config.get` defaults materialised). -/
structure StratConfig where
  rsi_period : ℕ
  macd_fast : ℕ
  macd_slow : ℕ
  macd_signal : ℕ
  rsi_oversold : ℚ
  rsi_overbought : ℚ
deriving DecidableEq, Repr

/-- Embeds `RSIMACDStrategy.generate_signal(data)` (trading_strategies.py lines
136–194) over the close column, with the row symbol passed explicitly.
`none` models the raising executions: `iloc[-1]` on an empty frame, and
`iloc[-2]` (reached only when a buy/sell condition's first two conjuncts
hold, mirroring Python's short-circuit `and`) on a length-1 frame. -/
def generate_signal (cfg : StratConfig) (symbol : String)
    (closes : List ℚ) : Option TradingSignal :=
  if closes = [] then none
  else
    let lastClose := closes.getLastD 0
    if closes.length < max cfg.macd_slow cfg.rsi_period then
      some ⟨symbol, .hold, FQ.num 0, lastClose, closes.length - 1,
            .insufficientData⟩
    else
      let current_rsi := (rsiCalculate cfg.rsi_period closes).getLastD FQ.nan
      let macd_data :=
        macdCalculate cfg.macd_fast cfg.macd_slow cfg.macd_signal closes
      let current_macd := macd_data.macd.getLastD 0
      let current_signal := macd_data.signal.getLastD 0
      let prevs : Option (ℚ × ℚ) :=
        if 2 ≤ closes.length then
          (macd_data.macd.get? (closes.length - 2)).bind (fun pm =>
            (macd_data.signal.get? (closes.length - 2)).map (fun ps =>
              (pm, ps)))
        else none
      let sellPart : Option TradingSignal :=
        if FQ.blt (FQ.num cfg.rsi_overbought) current_rsi ∧
            current_macd < current_signal then
          prevs.elim none (fun pq =>
            if pq.2 ≤ pq.1 then
              some ⟨symbol, .sell,
                FQ.fmin
                  (FQ.div (FQ.sub current_rsi (FQ.num cfg.rsi_overbought))
                    (FQ.num 30))
                  (FQ.num 1),
                lastClose, closes.length - 1, .rsiOverboughtMacdDead⟩
            else
              some ⟨symbol, .hold, FQ.num 0, lastClose, closes.length - 1,
                    .noClearSignal⟩)
        else
          some ⟨symbol, .hold, FQ.num 0, lastClose, closes.length - 1,
                .noClearSignal⟩
      if FQ.blt current_rsi (FQ.num cfg.rsi_oversold) ∧
          current_signal < current_macd then
        prevs.elim none (fun pq =>
          if pq.1 ≤ pq.2 then
            some ⟨symbol, .buy,
              FQ.fmin
                (FQ.div (FQ.sub (FQ.num cfg.rsi_oversold) current_rsi)
                  (FQ.num 30))
                (FQ.num 1),
              lastClose, closes.length - 1, .rsiOversoldMacdGolden⟩
          else sellPart)
      else sellPart

/-! ## Concrete states used by the theorems below -/

/-- A live long position on BTC/USDT. -/
def btcPosition : Position := ⟨"BTC/USDT", "long", 1, 100, 100, 0, 0, 0⟩

/-- The risk-management configuration defaults from risk_manager.py's
`config.get` calls. -/
def baseConfig : RMConfig := ⟨1/10, 10, 1000, 50, 3, 1/10, 15/100, 1/20, 1/20⟩

/-- A risk-manager state already holding the BTC/USDT position. -/
def stateWithBtc : RMState := ⟨baseConfig, [("BTC/USDT", btcPosition)], 0, 0, [], 0, 0⟩

/-- A fresh risk-manager state with no positions and no history. -/
def emptyState : RMState := ⟨baseConfig, [], 0, 0, [], 0, 0⟩

/-! ## Theorems -/

/-- Looking up a key right after overwriting it yields the new value. -/
lemma lookupPos_insertPos (s : String) (v : Position)
    (l : List (String × Position)) :
    lookupPos s (insertPos s v l) = some v := by
  induction l with
  | nil => simp [insertPos, lookupPos]
  | cons kv tl ih =>
    by_cases h : kv.1 == s
    · simp [insertPos, h, lookupPos]
    · simpa [insertPos, h, lookupPos, List.find?_cons_of_neg] using ih

/-- Looking up a key right after popping it yields nothing. -/
lemma lookupPos_erasePos (s : String) (l : List (String × Position)) :
    lookupPos s (erasePos s l) = none := by
  induction l with
  | nil => simp [erasePos, lookupPos]
  | cons kv tl ih =>
    by_cases h : kv.1 == s
    · simp only [erasePos, List.filter] at ih ⊢
      simp [h, ih]
    · simp only [erasePos, List.filter] at ih ⊢
      simp [h, lookupPos, List.find?_cons_of_neg, ih]

/-- C10: the result of `check_risk_limits` is independent of its
`amount` and `price` arguments — any two calls differing only in those
return the same (allowed, reason) pair — and the orchestrator's
`_execute_signal` call site (which passes the literal amount 0) gets
exactly the result of a call with any amount and price. -/
theorem check_risk_limits_independent_of_amount_price :
    ∀ (st : RMState) (symbol side : String) (a₁ p₁ a₂ p₂ : ℚ),
      check_risk_limits st symbol side a₁ p₁ =
        check_risk_limits st symbol side a₂ p₂ ∧
      ∀ (b : Bool) (sp amt pr : ℚ),
        execute_signal_check st symbol b sp =
          check_risk_limits st symbol (if b then "long" else "short") amt pr :=
  fun _ _ _ _ _ _ _ => ⟨rfl, fun _ _ _ _ => rfl⟩

/-- C9 (code bug): `_run_trading_cycle` has no run-lock.  With one cycle
already in flight, the trigger unconditionally starts a second one
(`asyncio.create_task`), instead of skipping as the spec requires. -/
theorem run_trading_cycle_starts_second_cycle :
    run_trading_cycle 1 = 2 ∧ run_trading_cycle 1 ≠ 1 := by
  decide

/-- C1 (code bug): `add_position` on a symbol that is already present in
the live position map does not fail or reject — it silently overwrites
the existing `Position` (and still increments the daily trade counter),
contradicting the spec's "must never silently overwrite". -/
theorem add_position_overwrites_existing :
    memPos "BTC/USDT" stateWithBtc.positions = true ∧
    (add_position stateWithBtc "BTC/USDT" "short" 2 50 7).positions =
      [("BTC/USDT", ⟨"BTC/USDT", "short", 2, 50, 50, 7, 0, 0⟩)] ∧
    (add_position stateWithBtc "BTC/USDT" "short" 2 50 7).daily_trades = 1 := by
  decide

/-- C5: for signal strengths in [0,1] and positive prices,
`calculate_position_size` returns 0 whenever the desired notional
(available balance × base percent × strength) is below the minimum trade
notional, and otherwise returns the clamped notional divided by price,
whose notional never exceeds the configured `max_position_size`. -/
theorem calculate_position_size_bounds :
    ∀ (st : RMState) (price s : ℚ), 0 < price → 0 ≤ s → s ≤ 1 →
      (get_available_balance st.config * (st.config.position_size_percent * s) <
          st.config.min_trade_amount →
        calculate_position_size st price s = 0) ∧
      (st.config.min_trade_amount ≤
          get_available_balance st.config * (st.config.position_size_percent * s) →
        calculate_position_size st price s * price ≤
          st.config.max_position_size ∧
        calculate_position_size st price s =
          min (get_available_balance st.config *
              (st.config.position_size_percent * s))
            st.config.max_position_size / price) := by
  intro st price s hp _ _
  constructor
  · intro h
    simp only [calculate_position_size]
    rw [if_pos h]
  · intro h
    simp only [calculate_position_size]
    rw [if_neg (not_lt.2 h)]
    refine ⟨?_, rfl⟩
    rw [div_mul_cancel₀ _ (ne_of_gt hp)]
    exact min_le_right _ _

/-- Witness for C5: with the default configuration (balance 1000, base
percent 1/10, minimum notional 10), strength 1 and price 4, the notional
bound and the quantity formula hold concretely. -/
theorem calculate_position_size_bounds_witness :
    calculate_position_size emptyState 4 1 * 4 ≤
      emptyState.config.max_position_size ∧
    calculate_position_size emptyState 4 1 =
      min (get_available_balance emptyState.config *
          (emptyState.config.position_size_percent * 1))
        emptyState.config.max_position_size / 4 :=
  (calculate_position_size_bounds emptyState 4 1 (by norm_num) (by norm_num)
    (le_refl 1)).2
    (by norm_num [emptyState, baseConfig, get_available_balance])

/-- C2: `check_risk_limits` evaluates its five checks in the fixed order
daily-trade-count, concurrent-position-count, symbol-already-open,
drawdown ceiling, emergency-stop ceiling, short-circuiting at the first
failure with that check's reason; it returns allowed = true exactly when
none of the five conditions apply; and for each of the five checks some
state makes it the failing one. -/
theorem check_risk_limits_order_and_characterization :
    ∀ (st : RMState) (symbol side : String) (amount price : ℚ),
      ((check_risk_limits st symbol side amount price).1 = true ↔
        (st.daily_trades < st.config.max_daily_trades ∧
         st.positions.length < st.config.max_concurrent_positions ∧
         memPos symbol st.positions = false ∧
         st.max_drawdown ≤ st.config.max_drawdown ∧
         st.max_drawdown ≤ st.config.emergency_stop_loss)) ∧
      (st.config.max_daily_trades ≤ st.daily_trades →
        check_risk_limits st symbol side amount price =
          (false, .dailyLimit st.config.max_daily_trades)) ∧
      (st.daily_trades < st.config.max_daily_trades →
        st.config.max_concurrent_positions ≤ st.positions.length →
        check_risk_limits st symbol side amount price =
          (false, .concurrentLimit st.config.max_concurrent_positions)) ∧
      (st.daily_trades < st.config.max_daily_trades →
        st.positions.length < st.config.max_concurrent_positions →
        memPos symbol st.positions = true →
        check_risk_limits st symbol side amount price =
          (false, .symbolOpen symbol)) ∧
      (st.daily_trades < st.config.max_daily_trades →
        st.positions.length < st.config.max_concurrent_positions →
        memPos symbol st.positions = false →
        st.config.max_drawdown < st.max_drawdown →
        check_risk_limits st symbol side amount price =
          (false, .drawdownLimit st.config.max_drawdown)) ∧
      (st.daily_trades < st.config.max_daily_trades →
        st.positions.length < st.config.max_concurrent_positions →
        memPos symbol st.positions = false →
        st.max_drawdown ≤ st.config.max_drawdown →
        st.config.emergency_stop_loss < st.max_drawdown →
        check_risk_limits st symbol side amount price =
          (false, .emergencyStop st.config.emergency_stop_loss)) ∧
      (∃ (st₁ : RMState) (sy sd : String) (a p : ℚ),
        check_risk_limits st₁ sy sd a p =
          (false, .dailyLimit st₁.config.max_daily_trades)) ∧
      (∃ (st₁ : RMState) (sy sd : String) (a p : ℚ),
        check_risk_limits st₁ sy sd a p =
          (false, .concurrentLimit st₁.config.max_concurrent_positions)) ∧
      (∃ (st₁ : RMState) (sy sd : String) (a p : ℚ),
        check_risk_limits st₁ sy sd a p = (false, .symbolOpen sy)) ∧
      (∃ (st₁ : RMState) (sy sd : String) (a p : ℚ),
        check_risk_limits st₁ sy sd a p =
          (false, .drawdownLimit st₁.config.max_drawdown)) ∧
      (∃ (st₁ : RMState) (sy sd : String) (a p : ℚ),
        check_risk_limits st₁ sy sd a p =
          (false, .emergencyStop st₁.config.emergency_stop_loss)) := by
  intro st symbol side amount price
  refine ⟨?_, ?_, ?_, ?_, ?_, ?_, ?_, ?_, ?_, ?_, ?_⟩
  · unfold check_risk_limits
    split_ifs with h1 h2 h3 h4 h5
    · exact iff_of_false (by simp) (fun hc => absurd hc.1 (not_lt.2 h1))
    · exact iff_of_false (by simp) (fun hc => absurd hc.2.1 (not_lt.2 h2))
    · exact iff_of_false (by simp) (fun hc => absurd h3 (by simp [hc.2.2.1]))
    · exact iff_of_false (by simp)
        (fun hc => absurd h4 (not_lt.2 hc.2.2.2.1))
    · exact iff_of_false (by simp)
        (fun hc => absurd h5 (not_lt.2 hc.2.2.2.2))
    · exact iff_of_true rfl
        ⟨not_le.1 h1, not_le.1 h2, by simpa using h3, not_lt.1 h4,
         not_lt.1 h5⟩
  · intro h1
    unfold check_risk_limits
    rw [if_pos h1]
  · intro h1 h2
    unfold check_risk_limits
    rw [if_neg (not_le.2 h1), if_pos h2]
  · intro h1 h2 h3
    unfold check_risk_limits
    rw [if_neg (not_le.2 h1), if_neg (not_le.2 h2), if_pos h3]
  · intro h1 h2 h3 h4
    unfold check_risk_limits
    rw [if_neg (not_le.2 h1), if_neg (not_le.2 h2),
        if_neg (by simp [h3]), if_pos h4]
  · intro h1 h2 h3 h4 h5
    unfold check_risk_limits
    rw [if_neg (not_le.2 h1), if_neg (not_le.2 h2),
        if_neg (by simp [h3]), if_neg (not_lt.2 h4), if_pos h5]
  · exact ⟨⟨⟨1/10, 10, 1000, 0, 3, 1/10, 15/100, 1/20, 1/20⟩,
      [], 0, 0, [], 0, 0⟩, "A", "long", 0, 0, by decide⟩
  · exact ⟨⟨⟨1/10, 10, 1000, 50, 0, 1/10, 15/100, 1/20, 1/20⟩,
      [], 0, 0, [], 0, 0⟩, "A", "long", 0, 0, by decide⟩
  · exact ⟨stateWithBtc, "BTC/USDT", "long", 0, 0, by decide⟩
  · exact ⟨⟨⟨1/10, 10, 1000, 50, 3, 1/10, 15/100, 1/20, 1/20⟩,
      [], 0, 0, [], 1/2, 0⟩, "A", "long", 0, 0,
      by norm_num [check_risk_limits, memPos]⟩
  · exact ⟨⟨⟨1/10, 10, 1000, 50, 3, 1/5, 1/10, 1/20, 1/20⟩,
      [], 0, 0, [], 12/100, 0⟩, "A", "long", 0, 0,
      by norm_num [check_risk_limits, memPos]⟩

/-- Witness for C2: in the state holding BTC/USDT (one position, limit
three, no trades today), a new BTC/USDT entry fails the
symbol-already-open check with that reason. -/
theorem check_risk_limits_order_witness :
    check_risk_limits stateWithBtc "BTC/USDT" "long" 0 0 =
      (false, .symbolOpen "BTC/USDT") :=
  (check_risk_limits_order_and_characterization stateWithBtc "BTC/USDT"
    "long" 0 0).2.2.2.1 (by decide) (by decide) (by decide)

/-- C6: `add_position` followed by a price mark and `remove_position` on
the same symbol leaves the live map without the symbol and appends
exactly one trade record whose `pnl` is the last mark-price-computed
unrealized PnL, which is also accumulated into the daily PnL. -/
theorem open_update_close_round_trip :
    ∀ (st : RMState) (symbol side : String) (amount entry_price p : ℚ)
      (t₁ t₂ : ℕ), entry_price * amount ≠ 0 →
      ∃ (st₂ : RMState) (pos : Position) (st₃ : RMState),
        update_position_price
            (add_position st symbol side amount entry_price t₁) symbol p =
          some st₂ ∧
        remove_position st₂ symbol t₂ = (some pos, st₃) ∧
        lookupPos symbol st₃.positions = none ∧
        pos.unrealized_pnl =
          (if side == "long" then (p - entry_price) * amount
           else (entry_price - p) * amount) ∧
        st₃.trade_history = st.trade_history ++
          [⟨symbol, side, amount, entry_price, p, t₁, t₂,
            pos.unrealized_pnl, pos.unrealized_pnl_percent⟩] ∧
        st₃.daily_pnl = st.daily_pnl + pos.unrealized_pnl := by
  intro st symbol side amount entry_price p t₁ t₂ hne
  obtain ⟨st₂, hupd, hl₂, hhist₂, hpnl₂⟩ :
      ∃ st₂, update_position_price
          (add_position st symbol side amount entry_price t₁) symbol p =
            some st₂ ∧
        lookupPos symbol st₂.positions =
          some ⟨symbol, side, amount, entry_price, p, t₁,
            (if side == "long" then (p - entry_price) * amount
             else (entry_price - p) * amount),
            (if side == "long" then (p - entry_price) * amount
             else (entry_price - p) * amount) / (entry_price * amount)⟩ ∧
        st₂.trade_history = st.trade_history ∧
        st₂.daily_pnl = st.daily_pnl := by
    refine ⟨{ st with
        positions := insertPos symbol
          ⟨symbol, side, amount, entry_price, p, t₁,
            (if side == "long" then (p - entry_price) * amount
             else (entry_price - p) * amount),
            (if side == "long" then (p - entry_price) * amount
             else (entry_price - p) * amount) / (entry_price * amount)⟩
          (insertPos symbol
            ⟨symbol, side, amount, entry_price, entry_price, t₁, 0, 0⟩
            st.positions),
        daily_trades := st.daily_trades + 1 }, ?_, ?_, rfl, rfl⟩
    · simp only [update_position_price, add_position, lookupPos_insertPos]
      rw [if_neg hne]
    · exact lookupPos_insertPos _ _ _
  refine ⟨st₂,
    ⟨symbol, side, amount, entry_price, p, t₁,
      (if side == "long" then (p - entry_price) * amount
       else (entry_price - p) * amount),
      (if side == "long" then (p - entry_price) * amount
       else (entry_price - p) * amount) / (entry_price * amount)⟩,
    (remove_position st₂ symbol t₂).2, hupd, ?_, ?_, ?_, ?_, ?_⟩
  · simp only [remove_position, hl₂]
  · simp only [remove_position, hl₂]
    exact lookupPos_erasePos _ _
  · rfl
  · simp only [remove_position, hl₂, hhist₂]
  · simp only [remove_position, hl₂, hpnl₂]

/-- Witness for C6: open a long BTC/USDT position of 1 at 100, mark it
to 110, close it — the map no longer holds the symbol and the recorded
pnl of 10 is added to the daily PnL. -/
theorem open_update_close_round_trip_witness :
    ∃ (st₂ : RMState) (pos : Position) (st₃ : RMState),
      update_position_price
          (add_position emptyState "BTC/USDT" "long" 1 100 0) "BTC/USDT" 110 =
        some st₂ ∧
      remove_position st₂ "BTC/USDT" 9 = (some pos, st₃) ∧
      lookupPos "BTC/USDT" st₃.positions = none ∧
      pos.unrealized_pnl =
        (if ("long" : String) == "long" then ((110 : ℚ) - 100) * 1
         else ((100 : ℚ) - 110) * 1) ∧
      st₃.trade_history = emptyState.trade_history ++
        [⟨"BTC/USDT", "long", 1, 100, 110, 0, 9,
          pos.unrealized_pnl, pos.unrealized_pnl_percent⟩] ∧
      st₃.daily_pnl = emptyState.daily_pnl + pos.unrealized_pnl :=
  open_update_close_round_trip emptyState "BTC/USDT" "long" 1 100 110 0 9
    (by norm_num)

/-- C7: `calculate_risk_metrics` is idempotent — with no intervening
mutation, a second call returns the identical `RiskMetrics` value and
leaves the state fixed (the first call's `peak_balance` / `max_drawdown`
updates are a fixed point), for every standard-deviation oracle. -/
theorem calculate_risk_metrics_idempotent :
    ∀ (std : List ℚ → ℚ) (st : RMState),
      (calculate_risk_metrics std (calculate_risk_metrics std st).2).1 =
        (calculate_risk_metrics std st).1 ∧
      (calculate_risk_metrics std (calculate_risk_metrics std st).2).2 =
        (calculate_risk_metrics std st).2 := by
  intro std st
  have hpeak : ∀ a b : ℚ,
      (if (if a < b then b else a) < b then b
       else (if a < b then b else a)) = if a < b then b else a := by
    intro a b
    by_cases h : a < b
    · simp [h]
    · simp [h]
  have hmax : ∀ a b : ℚ, max (max a b) b = max a b := fun a b => by
    rw [max_assoc, max_self]
  constructor
  · simp only [calculate_risk_metrics]
    rw [hpeak, hmax]
  · simp only [calculate_risk_metrics]
    rw [hpeak, hmax]

/-- The recursion `ewmAux` preserves length. -/
lemma ewmAux_length (u : ℚ) (xs : List ℚ) :
    ∀ a b : ℚ, (ewmAux u xs a b).length = xs.length := by
  induction xs with
  | nil => intro a b; rfl
  | cons x tl ih => intro a b; simp [ewmAux, ih]

/-- The `Series.ewm` embedding preserves length. -/
lemma ewmMean_length (s : ℕ) (xs : List ℚ) :
    (ewmMean s xs).length = xs.length :=
  ewmAux_length _ _ _ _

/-- The MACD line has one entry per close. -/
lemma macd_line_length (f s g : ℕ) (xs : List ℚ) :
    (macdCalculate f s g xs).macd.length = xs.length := by
  simp [macdCalculate, List.length_zipWith, ewmMean_length]

/-- The MACD signal line has one entry per close. -/
lemma macd_signal_length (f s g : ℕ) (xs : List ℚ) :
    (macdCalculate f s g xs).signal.length = xs.length := by
  simp [macdCalculate, ewmMean_length, List.length_zipWith]

/-- C3 (amended): the RSI+MACD insufficient-data guard triggers exactly
below `max(macd_slow, rsi_period)` — without the spec's "+1" — and any
nonempty shorter series yields the insufficient-data Hold signal, while
any series of length at least the threshold (and at least 2) proceeds to
indicator evaluation, producing a signal whose rationale is not
insufficient-data. -/
theorem generate_signal_length_guard :
    ∀ (cfg : StratConfig) (symbol : String) (closes : List ℚ),
      (closes ≠ [] → closes.length < max cfg.macd_slow cfg.rsi_period →
        generate_signal cfg symbol closes =
          some ⟨symbol, .hold, FQ.num 0, closes.getLastD 0,
            closes.length - 1, .insufficientData⟩) ∧
      (2 ≤ closes.length → max cfg.macd_slow cfg.rsi_period ≤ closes.length →
        ∃ sig, generate_signal cfg symbol closes = some sig ∧
          sig.reason ≠ .insufficientData) := by
  intro cfg symbol closes
  constructor
  · intro hne hlt
    simp only [generate_signal, if_neg hne, if_pos hlt]
  · intro h2 hge
    have hne : closes ≠ [] := by
      intro h
      rw [h] at h2
      simp at h2
    have hnlt : ¬ closes.length < max cfg.macd_slow cfg.rsi_period :=
      not_lt.2 hge
    have hm : closes.length - 2 <
        (macdCalculate cfg.macd_fast cfg.macd_slow cfg.macd_signal
          closes).macd.length := by
      rw [macd_line_length]
      omega
    have hs : closes.length - 2 <
        (macdCalculate cfg.macd_fast cfg.macd_slow cfg.macd_signal
          closes).signal.length := by
      rw [macd_signal_length]
      omega
    simp only [generate_signal, if_neg hne, if_neg hnlt, if_pos h2,
      List.get?_eq_get hm, List.get?_eq_get hs, Option.some_bind,
      Option.map_some', Option.elim]
    split_ifs <;> exact ⟨_, rfl, by simp⟩

/-- Witness for C3: with periods (rsi 2, macd 2/3/2) the threshold is 3,
and the two-close series [1, 2] yields the insufficient-data Hold. -/
theorem generate_signal_length_guard_witness :
    generate_signal ⟨2, 2, 3, 2, 30, 70⟩ "X" [1, 2] =
      some ⟨"X", .hold, FQ.num 0, 2, 1, .insufficientData⟩ := by
  have h := (generate_signal_length_guard ⟨2, 2, 3, 2, 30, 70⟩ "X"
    [1, 2]).1 (by simp) (by norm_num)
  simpa using h

/-- Counterexample for C3 as stated: the claim requires every series
shorter than `max(macd_slow, rsi_period) + 1` to produce the
insufficient-data Hold, but a series of length exactly
`max(macd_slow, rsi_period)` (3 < 3 + 1 here) is evaluated normally and
returns the no-clear-signal Hold instead. -/
theorem generate_signal_length_guard_counterexample :
    ([1, 2, 3] : List ℚ).length < max 3 2 + 1 ∧
    generate_signal ⟨2, 2, 3, 2, 30, 70⟩ "X" [1, 2, 3] =
      some ⟨"X", .hold, FQ.num 0, 3, 2, .noClearSignal⟩ ∧
    SigReason.noClearSignal ≠ SigReason.insufficientData := by
  refine ⟨by norm_num, ?_, by decide⟩
  norm_num [generate_signal, rsiCalculate, rollingMean, gainsOf, lossesOf,
    diffFQ, windowMean, macdCalculate, ewmMean, ewmAux,
    FQ.add, FQ.div, FQ.sub, FQ.neg, FQ.blt, FQ.fmin,
    show List.range 3 = [0, 1, 2] from rfl]
  intro h
  simp at h

/-- C4 (amended): whenever the RSI+MACD strategy emits a Buy signal, its
strength is `min(1, (oversoldThreshold − RSI)/30)` — the denominator is
the hard-coded constant 30, not the configured oversold threshold — and
a Sell signal's strength is `min(1, (RSI − overboughtThreshold)/30)`. -/
theorem generate_signal_strength_formula :
    ∀ (cfg : StratConfig) (symbol : String) (closes : List ℚ)
      (sig : TradingSignal),
      generate_signal cfg symbol closes = some sig →
      (sig.signal = .buy →
        sig.strength = FQ.fmin
          (FQ.div (FQ.sub (FQ.num cfg.rsi_oversold)
            ((rsiCalculate cfg.rsi_period closes).getLastD FQ.nan))
            (FQ.num 30)) (FQ.num 1)) ∧
      (sig.signal = .sell →
        sig.strength = FQ.fmin
          (FQ.div (FQ.sub ((rsiCalculate cfg.rsi_period closes).getLastD
            FQ.nan) (FQ.num cfg.rsi_overbought))
            (FQ.num 30)) (FQ.num 1)) := by
  intro cfg symbol closes sig h
  by_cases hnil : closes = []
  · simp [generate_signal, hnil] at h
  · simp only [generate_signal, if_neg hnil] at h
    split at h
    · injection h with h'
      subst h'
      exact ⟨fun hs => absurd hs (by simp), fun hs => absurd hs (by simp)⟩
    · split at h
      · -- buy condition holds
        split at h
        · -- history long enough for the previous row
          rcases hpm : (macdCalculate cfg.macd_fast cfg.macd_slow
              cfg.macd_signal closes).macd.get? (closes.length - 2) with
            _ | pm
          · rw [hpm] at h
            simp at h
          · rw [hpm] at h
            rcases hps : (macdCalculate cfg.macd_fast cfg.macd_slow
                cfg.macd_signal closes).signal.get? (closes.length - 2) with
              _ | ps
            · rw [hps] at h
              simp at h
            · rw [hps] at h
              simp only [Option.some_bind, Option.map_some',
                Option.elim] at h
              split at h
              · injection h with h'
                subst h'
                exact ⟨fun _ => rfl, fun hs => absurd hs (by simp)⟩
              · split at h
                · split at h
                  · injection h with h'
                    subst h'
                    exact ⟨fun hs => absurd hs (by simp), fun _ => rfl⟩
                  · injection h with h'
                    subst h'
                    exact ⟨fun hs => absurd hs (by simp),
                      fun hs => absurd hs (by simp)⟩
                · injection h with h'
                  subst h'
                  exact ⟨fun hs => absurd hs (by simp),
                    fun hs => absurd hs (by simp)⟩
        · simp at h
      · -- buy condition fails: fall through to the sell part
        split at h
        · split at h
          · rcases hpm : (macdCalculate cfg.macd_fast cfg.macd_slow
                cfg.macd_signal closes).macd.get? (closes.length - 2) with
              _ | pm
            · rw [hpm] at h
              simp at h
            · rw [hpm] at h
              rcases hps : (macdCalculate cfg.macd_fast cfg.macd_slow
                  cfg.macd_signal closes).signal.get? (closes.length - 2) with
                _ | ps
              · rw [hps] at h
                simp at h
              · rw [hps] at h
                simp only [Option.some_bind, Option.map_some',
                  Option.elim] at h
                split at h
                · injection h with h'
                  subst h'
                  exact ⟨fun hs => absurd hs (by simp), fun _ => rfl⟩
                · injection h with h'
                  subst h'
                  exact ⟨fun hs => absurd hs (by simp),
                    fun hs => absurd hs (by simp)⟩
          · simp at h
        · injection h with h'
          subst h'
          exact ⟨fun hs => absurd hs (by simp),
            fun hs => absurd hs (by simp)⟩

/-- Witness for C4: with rsi_oversold = 60 and closes
[10, 10, 9, 49/5] the strategy emits a Buy whose strength 14/27 equals
min(1, (60 − RSI)/30). -/
theorem generate_signal_strength_formula_witness :
    (⟨"X", Signal.buy, FQ.num (14/27), 49/5, 3,
      SigReason.rsiOversoldMacdGolden⟩ : TradingSignal).strength =
      FQ.fmin (FQ.div (FQ.sub (FQ.num (60 : ℚ))
        ((rsiCalculate 2 [10, 10, 9, 49/5]).getLastD FQ.nan))
        (FQ.num 30)) (FQ.num 1) :=
  (generate_signal_strength_formula ⟨2, 1, 2, 2, 60, 70⟩ "X"
    [10, 10, 9, 49/5]
    ⟨"X", .buy, FQ.num (14/27), 49/5, 3, .rsiOversoldMacdGolden⟩
    (by
      norm_num [generate_signal, rsiCalculate, rollingMean, gainsOf,
        lossesOf, diffFQ, windowMean, macdCalculate, ewmMean, ewmAux,
        FQ.add, FQ.div, FQ.sub, FQ.neg, FQ.blt, FQ.fmin,
        show List.range 4 = [0, 1, 2, 3] from rfl]
      intro h
      simp at h)).1 rfl

/-- Counterexample for C4 as stated: the emitted Buy strength is 14/27
(the code divides by the constant 30) while the claim's formula
min(1, (oversoldThreshold − RSI)/oversoldThreshold) yields 7/27 for the
same configuration (oversold = 60) and series. -/
theorem generate_signal_strength_formula_counterexample :
    generate_signal ⟨2, 1, 2, 2, 60, 70⟩ "X" [10, 10, 9, 49/5] =
      some ⟨"X", .buy, FQ.num (14/27), 49/5, 3, .rsiOversoldMacdGolden⟩ ∧
    FQ.num (14/27) ≠ FQ.fmin (FQ.div (FQ.sub (FQ.num 60)
      ((rsiCalculate 2 [10, 10, 9, 49/5]).getLastD FQ.nan))
      (FQ.num 60)) (FQ.num 1) := by
  constructor
  · norm_num [generate_signal, rsiCalculate, rollingMean, gainsOf,
      lossesOf, diffFQ, windowMean, macdCalculate, ewmMean, ewmAux,
      FQ.add, FQ.div, FQ.sub, FQ.neg, FQ.blt, FQ.fmin,
      show List.range 4 = [0, 1, 2, 3] from rfl]
    intro h
    simp at h
  · have hr : (rsiCalculate 2 [(10 : ℚ), 10, 9, 49/5]).getLastD FQ.nan =
        FQ.num (400/9) := by
      norm_num [rsiCalculate, rollingMean, gainsOf, lossesOf, diffFQ,
        windowMean, FQ.add, FQ.div, FQ.sub, FQ.neg, FQ.blt,
        show List.range 4 = [0, 1, 2, 3] from rfl]
    rw [hr]
    norm_num [FQ.fmin, FQ.div, FQ.sub, FQ.add, FQ.neg, FQ.blt]

/-- Zipping two maps over the same index list is a single map. -/
lemma zipWith_map_map (f : FQ → FQ → FQ) (g h : ℕ → FQ) (l : List ℕ) :
    List.zipWith f (l.map g) (l.map h) = l.map (fun i => f (g i) (h i)) := by
  induction l with
  | nil => rfl
  | cons a tl ih => simp [ih]

/-- The last element of a map over `List.range`. -/
lemma range_map_getLastD (f : ℕ → FQ) {n : ℕ} (hn : 1 ≤ n) (d : FQ) :
    ((List.range n).map f).getLastD d = f (n - 1) := by
  obtain ⟨m, rfl⟩ : ∃ m, n = m + 1 := ⟨n - 1, by omega⟩
  rw [List.range_succ, List.map_append]
  simp [List.getLastD_concat]

/-- The `Series.diff` embedding preserves length. -/
lemma diffFQ_length (xs : List ℚ) : (diffFQ xs).length = xs.length := by
  cases xs with
  | nil => rfl
  | cons x tl => simp [diffFQ, List.length_zipWith]

/-- Every element of the zipped difference list is a finite value. -/
lemma zipWith_sub_shape (l1 l2 : List ℚ) :
    ∀ d ∈ List.zipWith (fun b a => FQ.num (b - a)) l1 l2,
      ∃ q : ℚ, d = FQ.num q := by
  induction l1 generalizing l2 with
  | nil => intro d hd; simp at hd
  | cons b tl ih =>
    intro d hd
    cases l2 with
    | nil => simp at hd
    | cons a tl2 =>
      rcases List.mem_cons.1 hd with rfl | hd'
      · exact ⟨b - a, rfl⟩
      · exact ih tl2 d hd'

/-- Every element of `Series.diff` is NaN or a finite value. -/
lemma diffFQ_shape (xs : List ℚ) :
    ∀ d ∈ diffFQ xs, d = FQ.nan ∨ ∃ q : ℚ, d = FQ.num q := by
  intro d hd
  cases xs with
  | nil => simp [diffFQ] at hd
  | cons x tl =>
    rcases List.mem_cons.1 hd with rfl | hd'
    · exact Or.inl rfl
    · exact Or.inr (zipWith_sub_shape tl (x :: tl) d hd')

/-- A fold of `FQ.add` over all-zero entries is zero. -/
lemma foldr_add_all_zero (w : List FQ) (h : ∀ d ∈ w, d = FQ.num 0) :
    w.foldr FQ.add (FQ.num 0) = FQ.num 0 := by
  induction w with
  | nil => rfl
  | cons a tl ih =>
    rw [List.foldr_cons, ih (fun d hd => h d (List.mem_cons_of_mem a hd)),
        h a (List.mem_cons_self a tl)]
    simp [FQ.add]

/-- A fold of `FQ.add` over finite non-negative entries is a finite
non-negative value, strictly positive if some entry is positive. -/
lemma foldr_add_num_pos (w : List FQ)
    (h : ∀ d ∈ w, ∃ q : ℚ, d = FQ.num q ∧ 0 ≤ q) :
    ∃ s : ℚ, w.foldr FQ.add (FQ.num 0) = FQ.num s ∧ 0 ≤ s ∧
      ((∃ d ∈ w, FQ.blt (FQ.num 0) d = true) → 0 < s) := by
  induction w with
  | nil =>
    refine ⟨0, rfl, le_refl 0, ?_⟩
    rintro ⟨d, hd, _⟩
    simp at hd
  | cons a tl ih =>
    obtain ⟨qa, hqa, hqa0⟩ := h a (List.mem_cons_self a tl)
    obtain ⟨s, hs, hs0, hpos⟩ :=
      ih (fun d hd => h d (List.mem_cons_of_mem a hd))
    refine ⟨qa + s, ?_, by linarith, ?_⟩
    · rw [List.foldr_cons, hs, hqa]
      rfl
    · rintro ⟨d, hd, hbd⟩
      rcases List.mem_cons.1 hd with rfl | hd'
      · rw [hqa] at hbd
        have hq : (0 : ℚ) < qa := by simpa [FQ.blt] using hbd
        linarith
      · have := hpos ⟨d, hd', hbd⟩
        linarith

/-- Under non-negative deltas, every rolling-loss entry is zero. -/
lemma lossesOf_all_zero (xs : List ℚ)
    (h : ∀ d ∈ diffFQ xs, FQ.blt d (FQ.num 0) = false) :
    ∀ g ∈ lossesOf xs, g = FQ.num 0 := by
  intro g hg
  obtain ⟨d, hd, rfl⟩ := List.mem_map.1 hg
  simp [h d hd, FQ.neg]

/-- Every rolling-gain entry is a finite non-negative value. -/
lemma gainsOf_shape (xs : List ℚ) :
    ∀ g ∈ gainsOf xs, ∃ q : ℚ, g = FQ.num q ∧ 0 ≤ q := by
  intro g hg
  obtain ⟨d, hd, rfl⟩ := List.mem_map.1 hg
  rcases diffFQ_shape xs d hd with rfl | ⟨q, rfl⟩
  · exact ⟨0, by simp [FQ.blt], le_refl 0⟩
  · by_cases hq : FQ.blt (FQ.num 0) (FQ.num q) = true
    · refine ⟨q, by simp [hq], ?_⟩
      have : (0 : ℚ) < q := by simpa [FQ.blt] using hq
      linarith
    · exact ⟨0, by simp [hq], le_refl 0⟩

/-- C8 (amended): for every close series long enough for the window in
which every consecutive delta is non-negative and at least one delta in
the final window is strictly positive, the RSI at the last sample is
exactly 100 (average loss is 0, the rs ratio is +infinity, no NaN); a
wholly-flat window instead gives the 0/0 NaN, which is why the positive
delta is required. -/
theorem rsi_zero_loss_is_100 :
    ∀ (xs : List ℚ) (p : ℕ), 1 ≤ p → p ≤ xs.length →
      (∀ d ∈ diffFQ xs, FQ.blt d (FQ.num 0) = false) →
      (∃ d ∈ (diffFQ xs).drop (xs.length - p),
        FQ.blt (FQ.num 0) d = true) →
      (rsiCalculate p xs).getLastD FQ.nan = FQ.num 100 := by
  intro xs p hp hpn hnonneg hpos
  have hn : 1 ≤ xs.length := le_trans hp hpn
  have hgl : (gainsOf xs).length = xs.length := by
    simp [gainsOf, diffFQ_length]
  have hll : (lossesOf xs).length = xs.length := by
    simp [lossesOf, diffFQ_length]
  have key : rsiCalculate p xs = (List.range xs.length).map (fun i =>
      FQ.sub (FQ.num 100) (FQ.div (FQ.num 100) (FQ.add (FQ.num 1)
        (FQ.div
          (if i + 1 < p then FQ.nan
           else windowMean (((gainsOf xs).take (i + 1)).drop (i + 1 - p)))
          (if i + 1 < p then FQ.nan
           else windowMean
             (((lossesOf xs).take (i + 1)).drop (i + 1 - p))))))) := by
    simp only [rsiCalculate, rollingMean, hgl, hll, zipWith_map_map,
      List.map_map]
    rfl
  rw [key, range_map_getLastD _ hn]
  have hcond : ¬ (xs.length - 1 + 1 < p) := by omega
  rw [if_neg hcond, if_neg hcond]
  have htake : ∀ l : List FQ, l.length = xs.length →
      l.take (xs.length - 1 + 1) = l := by
    intro l hl
    have h1 : xs.length - 1 + 1 = l.length := by omega
    rw [h1, List.take_length]
  rw [htake _ hgl, htake _ hll]
  have hidx : xs.length - 1 + 1 - p = xs.length - p := by omega
  rw [hidx]
  have hps : ((p : ℚ)) ≠ 0 := Nat.cast_ne_zero.mpr (by omega)
  have hlossw :
      windowMean ((lossesOf xs).drop (xs.length - p)) = FQ.num 0 := by
    have hz : ∀ g ∈ (lossesOf xs).drop (xs.length - p), g = FQ.num 0 :=
      fun g hg => lossesOf_all_zero xs hnonneg g (List.mem_of_mem_drop hg)
    have hlen : ((lossesOf xs).drop (xs.length - p)).length = p := by
      rw [List.length_drop, hll]
      omega
    simp only [windowMean, foldr_add_all_zero _ hz, hlen]
    simp [FQ.div, hps]
  obtain ⟨g, hg, hgpos⟩ :
      ∃ g : ℚ, windowMean ((gainsOf xs).drop (xs.length - p)) = FQ.num g ∧
        0 < g := by
    have hsh : ∀ d ∈ (gainsOf xs).drop (xs.length - p),
        ∃ q : ℚ, d = FQ.num q ∧ 0 ≤ q :=
      fun d hd => gainsOf_shape xs d (List.mem_of_mem_drop hd)
    obtain ⟨s, hs, hs0, hspos⟩ := foldr_add_num_pos _ hsh
    have hlen : ((gainsOf xs).drop (xs.length - p)).length = p := by
      rw [List.length_drop, hgl]
      omega
    have hex : ∃ d ∈ (gainsOf xs).drop (xs.length - p),
        FQ.blt (FQ.num 0) d = true := by
      obtain ⟨d, hd, hbd⟩ := hpos
      refine ⟨d, ?_, hbd⟩
      have hmap : (gainsOf xs).drop (xs.length - p) =
          ((diffFQ xs).drop (xs.length - p)).map
            (fun d => if FQ.blt (FQ.num 0) d then d else FQ.num 0) := by
        rw [gainsOf, List.map_drop]
      rw [hmap]
      exact List.mem_map.2 ⟨d, hd, by simp [hbd]⟩
    have hspos' : 0 < s := hspos hex
    refine ⟨s / p, ?_, ?_⟩
    · simp only [windowMean, hs, hlen]
      simp [FQ.div, hps]
    · exact div_pos hspos' (by exact_mod_cast (by omega : 0 < p))
  rw [hg, hlossw]
  have hinf : FQ.div (FQ.num g) (FQ.num 0) = FQ.pinf := by
    simp [FQ.div, hgpos.ne', hgpos]
  rw [hinf]
  norm_num [FQ.add, FQ.div, FQ.sub, FQ.neg]

/-- Witness for C8: the rising series [1, 2, 3] with window 2 has
non-negative deltas and a positive delta in the final window, and its
RSI at the last sample is exactly 100. -/
theorem rsi_zero_loss_is_100_witness :
    (rsiCalculate 2 [(1 : ℚ), 2, 3]).getLastD FQ.nan = FQ.num 100 := by
  have hdiff : diffFQ [(1 : ℚ), 2, 3] = [FQ.nan, FQ.num 1, FQ.num 1] := by
    norm_num [diffFQ]
  apply rsi_zero_loss_is_100 [(1 : ℚ), 2, 3] 2 (by norm_num) (by norm_num)
  · intro d hd
    rw [hdiff] at hd
    rcases List.mem_cons.1 hd with rfl | hd
    · rfl
    · rcases List.mem_cons.1 hd with rfl | hd
      · norm_num [FQ.blt]
      · rcases List.mem_cons.1 hd with rfl | hd
        · norm_num [FQ.blt]
        · simp at hd
  · refine ⟨FQ.num 1, ?_, by norm_num [FQ.blt]⟩
    rw [hdiff]
    simp

/-- Counterexample for C8 as stated: the flat series [5, 5] has only
non-negative consecutive deltas (its sole delta is 0) and is as long as
the window, yet its RSI at the final sample is NaN (0/0), not 100. -/
theorem rsi_flat_series_counterexample :
    diffFQ [(5 : ℚ), 5] = [FQ.nan, FQ.num 0] ∧
    2 ≤ ([(5 : ℚ), 5]).length ∧
    (rsiCalculate 2 [(5 : ℚ), 5]).getLastD FQ.nan = FQ.nan ∧
    FQ.nan ≠ FQ.num 100 := by
  refine ⟨by norm_num [diffFQ], by norm_num, ?_, by simp⟩
  norm_num [rsiCalculate, rollingMean, gainsOf, lossesOf, diffFQ,
    windowMean, FQ.add, FQ.div, FQ.sub, FQ.neg, FQ.blt,
    show List.range 2 = [0, 1] from rfl]

end Tradingbot
